import Mathlib

/-!
# Verification of the skillmatch resume-to-job matching core

A shallow embedding of the matching pipeline of the `skillmatch` repository
(`core/views.py`, `core/models.py`) together with theorems settling the
frozen specification claims.

Python-level string primitives (`lower`, `strip`, `split`, `join`, the `in`
substring test, `sorted`) are modelled as Lean functions over `String.data`
(code-point lists), matching Python's code-point semantics on the ASCII data
this program manipulates.
-/

set_option maxRecDepth 8192

/-! ## Python string primitives -/

/-- Python `str.lower()` on a string value (code-point-wise lowercasing;
the texts handled by the program are ASCII, where `Char.toLower` agrees
with Python). -/
def pyLower (s : String) : String := ⟨s.data.map Char.toLower⟩

/-- Strip whitespace from the front and the back of a character list,
as Python `str.strip()` with no argument does. -/
def stripChars (l : List Char) : List Char :=
  ((l.dropWhile Char.isWhitespace).reverse.dropWhile Char.isWhitespace).reverse

/-- Python `str.strip()` (no argument): remove leading and trailing
whitespace. -/
def pyStrip (s : String) : String := ⟨stripChars s.data⟩

/-- Python `len` of a string: its number of code points. -/
def pyLen (s : String) : Nat := s.data.length

/-- Substring containment test on character lists: does `needle` occur
contiguously inside the second list? (`needle.isEmpty` makes the empty
needle match everywhere, as in Python.) -/
def listInfixB (needle : List Char) : List Char → Bool
  | [] => needle.isEmpty
  | c :: rest => needle.isPrefixOf (c :: rest) || listInfixB needle rest

/-- Python's `needle in hay` test on strings: contiguous substring
containment. -/
def pyIn (needle hay : String) : Bool := listInfixB needle.data hay.data

/-- Split a character list on a separator character, as Python
`str.split(sep)` for a one-character separator: `splitChars ',' []`
yields `[[]]`, matching `"".split(",") == [""]`. -/
def splitChars (sep : Char) : List Char → List (List Char)
  | [] => [[]]
  | c :: rest =>
    let r := splitChars sep rest
    if c = sep then [] :: r
    else (c :: r.headI) :: r.tail

/-- Python `s.split(",")` for strings. -/
def pySplit (sep : Char) (s : String) : List String :=
  (splitChars sep s.data).map String.mk

/-- Python `sep.join(parts)` for strings. -/
def pyJoin (sep : String) : List String → String
  | [] => ""
  | [x] => x
  | x :: y :: rest => x ++ sep ++ pyJoin sep (y :: rest)

/-! ## Python string ordering (`sorted`)

Python compares strings lexicographically by code point.  We model the
comparison as an executable Boolean relation so that concrete sorts
evaluate inside the kernel. -/

/-- Code-point comparison of characters. -/
def charLtB (a b : Char) : Bool := a.val < b.val

/-- Lexicographic code-point comparison of character lists, Python's `<`
on strings. -/
def listLtB : List Char → List Char → Bool
  | [], [] => false
  | [], _ :: _ => true
  | _ :: _, [] => false
  | a :: as, b :: bs => if charLtB a b then true else if charLtB b a then false else listLtB as bs

/-- Python's `<=` on strings (total order used by `sorted`). -/
def strLeB (a b : String) : Bool := !(listLtB b.data a.data)

/-- The propositional form of `strLeB`, used as the sorting relation. -/
def strLe (a b : String) : Prop := strLeB a b = true

instance : DecidableRel strLe := fun _ _ => inferInstanceAs (Decidable (_ = true))

/-- Python `sorted` on a list of strings (ascending lexicographic
code-point order). -/
def sortStr (l : List String) : List String := List.insertionSort strLe l

/-! ## Skill extraction (`core/views.py`, `SKILL_KEYWORDS` and
`extract_skills_from_text`) -/

/-- The fixed skill vocabulary of `core/views.py` (lines 22-29). -/
def SKILL_KEYWORDS : List String := [
  "python", "java", "c++", "c", "html", "css", "javascript", "react",
  "angular", "node", "django", "flask", "spring", "sql", "mysql",
  "postgresql", "mongodb", "oracle", "git", "github", "docker", "aws",
  "azure", "gcp", "pandas", "numpy", "matplotlib", "tensorflow", "keras",
  "pytorch", "machine learning", "deep learning", "nlp", "data analysis",
  "data science", "excel", "power bi", "tableau", "linux"
]

/-- The matched-keyword list of `extract_skills_from_text` before joining,
with an arbitrary vocabulary list: the keywords of `vocab` occurring as
substrings of the lowercased text (the loop building `found`), then
`sorted(set(found))`. -/
def extract_skills_list_with (vocab : List String) (text : String) : List String :=
  sortStr ((vocab.filter (fun k => pyIn k (pyLower text))).dedup)

/-- The matched-keyword list of `extract_skills_from_text` over the fixed
vocabulary `SKILL_KEYWORDS`. -/
def extract_skills_list (text : String) : List String :=
  extract_skills_list_with SKILL_KEYWORDS text

/-- `extract_skills_from_text` (`core/views.py` lines 69-82): lowercase the
text, collect every vocabulary keyword occurring as a substring, and return
the sorted deduplicated matches joined with `", "`. -/
def extract_skills_from_text (text : String) : String :=
  pyJoin ", " (extract_skills_list text)

/-! ## Resume validation (`core/views.py` lines 136-149) -/

/-- The fixed resume-likeness keyword list of `upload_resume`
(`core/views.py` lines 137-141). -/
def RESUME_KEYWORDS : List String := [
  "education", "experience", "skills", "project",
  "b.tech", "btech", "bachelor", "masters", "internship",
  "curriculum vitae", "resume"
]

/-- The resume validator: `upload_resume` rejects when
`len(cleaned) < 200 or not any(k in cleaned.lower() for k in RESUME_KEYWORDS)`
(`core/views.py` line 143), so it accepts exactly when the text has at
least 200 characters and its lowercasing contains at least one keyword. -/
def looks_like_resume (cleaned : String) : Bool :=
  !(pyLen cleaned < 200 || !(RESUME_KEYWORDS.any (fun k => pyIn k (pyLower cleaned))))

/-! ## Missing-skill recommendation (`core/views.py` lines 201-207) -/

/-- The skill token set of a comma-separated skill text:
`{s.strip().lower() for s in text.split(",") if s.strip()}`, modelled as a
deduplicated list. -/
def skillTokens (text : String) : List String :=
  ((((pySplit ',' text).map pyStrip).filter (fun t => !(t == ""))).map pyLower).dedup

/-- The sorted missing-skill list `sorted(job_skills_set - user_skills_set)`
(`core/views.py` line 207): job skill tokens that are not candidate skill
tokens. -/
def missing_skills_list (candidate job : String) : List String :=
  sortStr ((skillTokens job).filter (fun t => !((skillTokens candidate).contains t)))

/-- The recommended-skills string stored on a created Score:
`", ".join(sorted(job_skills_set - user_skills_set))`. -/
def recommendedSkills (candidate job : String) : String :=
  pyJoin ", " (missing_skills_list candidate job)

/-! ## Similarity scorer (`core/views.py` lines 196-199)

The view computes
`TfidfVectorizer(stop_words="english").fit_transform([skills_text, job_text])`
followed by `cosine_similarity` and `round(float(sim) * 100, 2)`.  The
vectorizer and similarity are external `sklearn` library calls; they are
modelled here from the library's documented behaviour with its default
settings on a two-document corpus: lowercase the text, take the maximal
runs of word characters of length at least two (`token_pattern`
`\b\w\w+\b`), drop the fixed English stop words, raise
`ValueError("empty vocabulary ...")` when no term survives, weight raw
term counts by the smooth idf `ln((1+n)/(1+df)) + 1` with `n = 2`, and
take the cosine of the two weight vectors, with an all-zero vector
normalised to zero rather than an error.  Real-number arithmetic stands
in for the library's float64 arithmetic. -/

/-- `sklearn`'s fixed English stop-word list. -/
def ENGLISH_STOP_WORDS : List String := [
  "a", "about", "above", "across", "after", "afterwards", "again", "against",
  "all", "almost", "alone", "along", "already", "also", "although", "always",
  "am", "among", "amongst", "amoungst", "amount", "an", "and", "another",
  "any", "anyhow", "anyone", "anything", "anyway", "anywhere", "are",
  "around", "as", "at", "back", "be", "became", "because", "become",
  "becomes", "becoming", "been", "before", "beforehand", "behind", "being",
  "below", "beside", "besides", "between", "beyond", "bill", "both",
  "bottom", "but", "by", "call", "can", "cannot", "cant", "co", "con",
  "could", "couldnt", "cry", "de", "describe", "detail", "do", "done",
  "down", "due", "during", "each", "eg", "eight", "either", "eleven",
  "else", "elsewhere", "empty", "enough", "etc", "even", "ever", "every",
  "everyone", "everything", "everywhere", "except", "few", "fifteen",
  "fifty", "fill", "find", "fire", "first", "five", "for", "former",
  "formerly", "forty", "found", "four", "from", "front", "full", "further",
  "get", "give", "go", "had", "has", "hasnt", "have", "he", "hence", "her",
  "here", "hereafter", "hereby", "herein", "hereupon", "hers", "herself",
  "him", "himself", "his", "how", "however", "hundred", "i", "ie", "if",
  "in", "inc", "indeed", "interest", "into", "is", "it", "its", "itself",
  "keep", "last", "latter", "latterly", "least", "less", "ltd", "made",
  "many", "may", "me", "meanwhile", "might", "mill", "mine", "more",
  "moreover", "most", "mostly", "move", "much", "must", "my", "myself",
  "name", "namely", "neither", "never", "nevertheless", "next", "nine",
  "no", "nobody", "none", "noone", "nor", "not", "nothing", "now",
  "nowhere", "of", "off", "often", "on", "once", "one", "only", "onto",
  "or", "other", "others", "otherwise", "our", "ours", "ourselves", "out",
  "over", "own", "part", "per", "perhaps", "please", "put", "rather", "re",
  "same", "see", "seem", "seemed", "seeming", "seems", "serious", "several",
  "she", "should", "show", "side", "since", "sincere", "six", "sixty",
  "so", "some", "somehow", "someone", "something", "sometime", "sometimes",
  "somewhere", "still", "such", "system", "take", "ten", "than", "that",
  "the", "their", "them", "themselves", "then", "thence", "there",
  "thereafter", "thereby", "therefore", "therein", "thereupon", "these",
  "they", "thick", "thin", "third", "this", "those", "though", "three",
  "through", "throughout", "thru", "thus", "to", "together", "too", "top",
  "toward", "towards", "twelve", "twenty", "two", "un", "under", "until",
  "up", "upon", "us", "very", "via", "was", "we", "well", "were", "what",
  "whatever", "when", "whence", "whenever", "where", "whereafter",
  "whereas", "whereby", "wherein", "whereupon", "wherever", "whether",
  "which", "while", "whither", "who", "whoever", "whole", "whom", "whose",
  "why", "will", "with", "within", "without", "would", "yet", "you",
  "your", "yours", "yourself", "yourselves"
]

/-- Word characters of the default `token_pattern` (`\w`): alphanumeric or
underscore (the program's data is ASCII). -/
def isWordChar (c : Char) : Bool := c.isAlphanum || c == '_'

/-- Accumulator pass collecting maximal runs of word characters
(`cur` holds the current run reversed). -/
def wordRunsAcc (cur : List Char) : List Char → List (List Char)
  | [] => if cur.isEmpty then [] else [cur.reverse]
  | c :: rest =>
    if isWordChar c then wordRunsAcc (c :: cur) rest
    else if cur.isEmpty then wordRunsAcc [] rest
    else cur.reverse :: wordRunsAcc [] rest

/-- The maximal runs of word characters of a character list. -/
def wordRuns (l : List Char) : List (List Char) := wordRunsAcc [] l

/-- The token list the vectorizer derives from one document: lowercase,
split into maximal word-character runs, keep runs of length at least two
(`token_pattern` `\b\w\w+\b`), drop English stop words. -/
def sklearnTokens (doc : String) : List String :=
  ((wordRuns (pyLower doc).data).map String.mk).filter
    (fun t => 2 ≤ t.length && !(ENGLISH_STOP_WORDS.contains t))

/-- The fitted vocabulary of the two-document corpus: the sorted distinct
surviving tokens of both documents.  `fit_transform` raises exactly when
this is empty. -/
def tfVocab (candidate job : String) : List String :=
  sortStr ((sklearnTokens candidate ++ sklearnTokens job).dedup)

/-- Document frequency of a term over the two-document corpus. -/
def docFreq (t : String) (da db : List String) : Nat :=
  (if da.contains t then 1 else 0) + (if db.contains t then 1 else 0)

/-- Smooth inverse document frequency with two documents:
`ln((1+n)/(1+df)) + 1` with `n = 2`. -/
noncomputable def idf (df : Nat) : ℝ := Real.log (3 / (1 + (df : ℝ))) + 1

/-- The (unnormalised) tf-idf weight vector of one document over the
vocabulary: raw term count times idf.  (`TfidfVectorizer` additionally
l2-normalises each row and `cosine_similarity` normalises again; the
cosine below is invariant under that scaling.) -/
noncomputable def tfidfVec (doc : List String) (da db : List String)
    (vocab : List String) : List ℝ :=
  vocab.map (fun t => (doc.count t : ℝ) * idf (docFreq t da db))

/-- Dot product of two real vectors. -/
noncomputable def dotR (u v : List ℝ) : ℝ := (List.zipWith (· * ·) u v).sum

/-- Cosine similarity as `sklearn.metrics.pairwise.cosine_similarity`
computes it: rows are l2-normalised with an all-zero row left as zero,
so a zero vector yields similarity `0` instead of a division error. -/
noncomputable def cosineSim (u v : List ℝ) : ℝ :=
  @ite ℝ (dotR u u = 0 ∨ dotR v v = 0) (Classical.propDecidable _) 0
    (dotR u v / (Real.sqrt (dotR u u) * Real.sqrt (dotR v v)))

/-- Round half to even (Python's `round` tie behaviour) over the reals. -/
noncomputable def roundHalfToEven (y : ℝ) : ℤ :=
  @ite ℤ (Int.fract y = 1 / 2) (Classical.propDecidable _)
    (2 * round (y / 2)) (round y)

/-- Python `round(x, 2)`: round to two decimal places, ties to even. -/
noncomputable def pyRound2 (x : ℝ) : ℝ := (roundHalfToEven (x * 100) : ℝ) / 100

/-- The stored similarity value `round(float(sim) * 100, 2)`
(`core/views.py` line 199). -/
noncomputable def scoreValue (candidate job : String) : ℝ :=
  pyRound2 (cosineSim
    (tfidfVec (sklearnTokens candidate) (sklearnTokens candidate) (sklearnTokens job) (tfVocab candidate job))
    (tfidfVec (sklearnTokens job) (sklearnTokens candidate) (sklearnTokens job) (tfVocab candidate job))
    * 100)

/-- The similarity scorer of `upload_resume` (`core/views.py` lines
196-199): fit the two-document tf-idf space and take the rounded cosine,
or propagate the vectorizer's `ValueError` when the vocabulary is empty. -/
noncomputable def score (candidate job : String) : Except String ℝ :=
  if tfVocab candidate job = [] then
    .error "empty vocabulary; perhaps the documents only contain stop words"
  else .ok (scoreValue candidate job)

/-! ## Data model (`core/models.py`) -/

/-- The status lifecycle values of a Score (`core/models.py` lines 28-33). -/
inductive Status where
  | DRAFT
  | SUBMITTED
  | SHORTLISTED
  | REJECTED
deriving DecidableEq, Repr

/-- A Job row: identifier and comma-separated required skills
(`core/models.py` lines 5-9; `title`, `description` and `created_by`
play no part in matching). -/
structure Job where
  id : Nat
  required_skills : String
deriving DecidableEq

/-- A Resume row: identifier, owning user and the derived skill text
(`core/models.py` lines 15-19; the stored file plays no part after
extraction). -/
structure Resume where
  id : Nat
  user : Nat
  skills : String
deriving DecidableEq

/-- A Score row (`core/models.py` lines 27-45): one resume matched to one
job, with similarity value, recommendation, lifecycle status and
shortlist flag. -/
structure Score where
  resume : Nat
  job : Nat
  value : ℝ
  recommended_skills : String
  status : Status
  is_shortlisted : Bool

/-- The owning user of a resume id, as the `resume__user` join resolves
it. -/
def userOf (resumes : List Resume) (rid : Nat) : Option Nat :=
  (resumes.find? (fun r => r.id == rid)).map Resume.user

/-- The duplicate-application check
`Score.objects.filter(job=job, resume__user=request.user).exists()`
(`core/views.py` lines 185-188): does any score row link this job to a
resume owned by this user? -/
def scoreExists (resumes : List Resume) (scores : List Score)
    (owner jobId : Nat) : Bool :=
  scores.any (fun s => s.job == jobId && (userOf resumes s.resume == some owner))

/-! ## Matching orchestrator (`core/views.py` lines 180-218)

The per-job loop of `upload_resume`: skip jobs that already have a score
for this user, otherwise compute the similarity score and the
missing-skill recommendation and create a `DRAFT` score row.  The loop
runs against the live score table, so each created row is visible to the
existence checks of the following iterations; an exception from the
scorer aborts the loop, and the rows created before it persist (there is
no enclosing transaction).  Returns the created rows, the final score
table and the uncaught exception, if any. -/
noncomputable def run_matching (owner : Nat) (skills_text : String) (rid : Nat)
    (resumes : List Resume) :
    List Job → List Score → List Score × List Score × Option String
  | [], scores => ([], scores, none)
  | j :: rest, scores =>
    if scoreExists resumes scores owner j.id then
      run_matching owner skills_text rid resumes rest scores
    else
      match score skills_text j.required_skills with
      | .error e => ([], scores, some e)
      | .ok v =>
        let r : Score := ⟨rid, j.id, v, recommendedSkills skills_text j.required_skills,
          .DRAFT, false⟩
        let out := run_matching owner skills_text rid resumes rest (scores ++ [r])
        (r :: out.1, out.2.1, out.2.2)

/-! ## The upload view (`core/views.py` lines 122-236) -/

/-- `messages.error` text for a failed resume-likeness validation
(`core/views.py` lines 144-148). -/
def msgInvalidResume : String :=
  "The uploaded file does not look like a valid resume. Please upload a proper resume (PDF/DOCX) with your details."

/-- `messages.error` text for empty skill extraction
(`core/views.py` lines 155-160). -/
def msgNoSkills : String :=
  "No technical skills were detected in your resume. Please clearly list your skills (e.g. 'Python, Django, SQL') in your resume and upload again."

/-- `messages.warning` text when the loop created nothing
(`core/views.py` lines 221-225). -/
def msgAllMatched : String :=
  "You have already created applications for all current jobs. No new applications were created."

/-- `messages.success` text when at least one draft was created
(`core/views.py` lines 228-232). -/
def msgSuccess : String :=
  "Resume analysed. Draft applications created for new jobs. Check 'My Applications' to see scores and skill suggestions."

/-- The user-visible outcome of one `upload_resume` POST: an error
message with a redirect back to the upload form, a warning or success
message with a redirect to the applications list, or an uncaught
exception. -/
inductive UploadOutcome where
  | error (msg : String)
  | warning (msg : String)
  | success (msg : String)
  | exception (e : String)
deriving DecidableEq

/-- The persistent state the pipeline touches: the resume and score
tables. -/
structure DB where
  resumes : List Resume
  scores : List Score

/-- One `upload_resume` POST with an attached file whose extracted text is
`resume_text` (`core/views.py` lines 129-233): strip, validate, extract
skills, append the optional typed skills, persist the resume row, and run
the matching loop over all jobs. -/
noncomputable def upload_resume (owner rid : Nat) (resume_text extra_skills : String)
    (jobs : List Job) (db : DB) : UploadOutcome × DB :=
  let cleaned := pyStrip resume_text
  if looks_like_resume cleaned then
    let extracted := extract_skills_from_text cleaned
    if extracted == "" then (.error msgNoSkills, db)
    else
      let extra := pyStrip extra_skills
      let skills_text := if extra == "" then extracted else extracted ++ ", " ++ extra
      let resume : Resume := ⟨rid, owner, skills_text⟩
      let resumes' := db.resumes ++ [resume]
      let out := run_matching owner skills_text rid resumes' jobs db.scores
      let db' : DB := ⟨resumes', out.2.1⟩
      match out.2.2 with
      | some e => (.exception e, db')
      | none =>
        if out.1.isEmpty then (.warning msgAllMatched, db')
        else (.success msgSuccess, db')
  else (.error msgInvalidResume, db)

/-! ## Status mutations (`core/views.py` lines 256-298) -/

/-- `submit_application` (`core/views.py` lines 256-267) as its effect on
one score row: only a `DRAFT` row moves, to `SUBMITTED`; any other row is
left unchanged (the view only shows an informational message). -/
def submit_application (s : Score) : Score :=
  if s.status = .DRAFT then { s with status := .SUBMITTED } else s

/-- `toggle_shortlist` (`core/views.py` lines 291-298) as its effect on
one score row: flip `is_shortlisted` and set `status` to `SHORTLISTED`
or `REJECTED` according to the new flag, whatever the previous status. -/
def toggle_shortlist (s : Score) : Score :=
  let b := !s.is_shortlisted
  { s with is_shortlisted := b, status := if b then .SHORTLISTED else .REJECTED }

/-- The status-mutating operations a score row can undergo after
creation. -/
inductive Op where
  | submit
  | toggle
deriving DecidableEq

/-- Apply one operation to a score row. -/
def applyOp (op : Op) (s : Score) : Score :=
  match op with
  | .submit => submit_application s
  | .toggle => toggle_shortlist s

/-- Apply a sequence of operations to a score row. -/
def runOps (ops : List Op) (s : Score) : Score :=
  ops.foldl (fun st op => applyOp op st) s

/-- The trace of states a score row passes through under a sequence of
operations, starting state included. -/
def statesOf (ops : List Op) (s : Score) : List Score :=
  ops.scanl (fun st op => applyOp op st) s

/-- The rank of a status in the lifecycle order
`DRAFT → SUBMITTED → {SHORTLISTED | REJECTED}`. -/
def rank : Status → Nat
  | .DRAFT => 0
  | .SUBMITTED => 1
  | .SHORTLISTED => 2
  | .REJECTED => 2

/-- A freshly created draft application row, as the orchestrator creates
them. -/
noncomputable def draftScore : Score := ⟨3, 7, 0, "", .DRAFT, false⟩

/-- Two score rows represent the same (resume-owner, job) application
pair. -/
def samePair (resumes : List Resume) (r s : Score) : Prop :=
  r.job = s.job ∧ ∃ u, userOf resumes r.resume = some u ∧ userOf resumes s.resume = some u

/-- At most one score row exists per (resume-owner, job) pair. -/
def NoDupPairs (resumes : List Resume) (scores : List Score) : Prop :=
  scores.Pairwise (fun r s => ¬ samePair resumes r s)

/-! ## Concrete example inputs used by the scenario claims -/

/-- A 150-character text containing "education" (length gate fails while
the keyword gate succeeds). -/
def eduText150 : String := String.mk (List.replicate 141 'z') ++ "education"

/-- A valid-looking resume text (214 characters, contains "resume") whose
only detected skill is "python". -/
def validText : String := String.mk (List.replicate 200 'z') ++ " resume python"

/-- A valid-looking resume text (207 characters, contains "skills") in
which no skill keyword occurs (note it has no letter 'c'). -/
def noSkillText : String := String.mk (List.replicate 200 'z') ++ " skills"

/-- A database holding one resume of user 0 and that resume's score row
for job 7. -/
noncomputable def dbOneMatch : DB :=
  ⟨[⟨3, 0, "python"⟩], [⟨3, 7, 0, "", .DRAFT, false⟩]⟩

/-! ## Helper lemmas: the Python string order -/

theorem charLtB_iff {a b : Char} : charLtB a b = true ↔ a < b := by
  simp only [charLtB, decide_eq_true_eq]
  exact Iff.rfl

theorem charLtB_irrefl (a : Char) : charLtB a a = false := by
  simp [charLtB]

theorem charLtB_connex {a b : Char} (h₁ : charLtB a b = false)
    (h₂ : charLtB b a = false) : a = b := by
  rw [Bool.eq_false_iff, Ne, charLtB_iff] at h₁ h₂
  exact le_antisymm (not_lt.mp h₂) (not_lt.mp h₁)

theorem listLtB_asymm : ∀ {as bs : List Char},
    listLtB as bs = true → listLtB bs as = true → False
  | [], [], h₁, _ => by simp [listLtB] at h₁
  | [], _ :: _, _, h₂ => by simp [listLtB] at h₂
  | _ :: _, [], h₁, _ => by simp [listLtB] at h₁
  | a :: as, b :: bs, h₁, h₂ => by
    by_cases hab : charLtB a b = true
    · by_cases hba : charLtB b a = true
      · exact absurd (charLtB_iff.mp hba) (lt_asymm (charLtB_iff.mp hab))
      · simp only [listLtB, hab, hba, if_true, if_false] at h₂
        simp [Bool.not_eq_true] at hba
        simp [listLtB, hab] at h₂
    · by_cases hba : charLtB b a = true
      · simp [listLtB, hab, hba] at h₁
      · simp only [Bool.not_eq_true] at hab hba
        simp only [listLtB, hab, hba, if_false] at h₁ h₂
        exact listLtB_asymm h₁ h₂

theorem listLtB_connex : ∀ {as bs : List Char},
    listLtB as bs = false → listLtB bs as = false → as = bs
  | [], [], _, _ => rfl
  | [], _ :: _, h₁, _ => by simp [listLtB] at h₁
  | _ :: _, [], _, h₂ => by simp [listLtB] at h₂
  | a :: as, b :: bs, h₁, h₂ => by
    by_cases hab : charLtB a b = true
    · simp [listLtB, hab] at h₁
    · by_cases hba : charLtB b a = true
      · simp [listLtB, hba] at h₂
      · simp only [Bool.not_eq_true] at hab hba
        simp only [listLtB, hab, hba, if_false] at h₁ h₂
        rw [charLtB_connex hab hba, listLtB_connex h₁ h₂]

theorem listLtB_trans : ∀ {as bs cs : List Char},
    listLtB as bs = true → listLtB bs cs = true → listLtB as cs = true
  | [], bs, [], h₁, h₂ => by
    cases bs with
    | nil => simp [listLtB] at h₁
    | cons b bs => simp [listLtB] at h₂
  | [], _, _ :: _, _, _ => by simp [listLtB]
  | _ :: _, [], _, h₁, _ => by simp [listLtB] at h₁
  | _ :: _, _ :: _, [], _, h₂ => by simp [listLtB] at h₂
  | a :: as, b :: bs, c :: cs, h₁, h₂ => by
    by_cases hab : charLtB a b = true
    · by_cases hbc : charLtB b c = true
      · have hac : charLtB a c = true := charLtB_iff.mpr
          (lt_trans (charLtB_iff.mp hab) (charLtB_iff.mp hbc))
        simp [listLtB, hac]
      · rw [Bool.not_eq_true] at hbc
        by_cases hcb : charLtB c b = true
        · simp [listLtB, hbc, hcb] at h₂
        · rw [Bool.not_eq_true] at hcb
          cases charLtB_connex hbc hcb
          simp [listLtB, hab]
    · rw [Bool.not_eq_true] at hab
      by_cases hba : charLtB b a = true
      · simp [listLtB, hab, hba] at h₁
      · rw [Bool.not_eq_true] at hba
        cases charLtB_connex hab hba
        simp only [listLtB, hab, if_false] at h₁
        by_cases hac : charLtB a c = true
        · simp [listLtB, hac]
        · rw [Bool.not_eq_true] at hac
          by_cases hca : charLtB c a = true
          · simp [listLtB, hac, hca] at h₂
          · rw [Bool.not_eq_true] at hca
            simp only [listLtB, hac, hca, if_false] at h₂ ⊢
            exact listLtB_trans h₁ h₂

instance : IsTotal String strLe :=
  ⟨fun a b => by
    simp only [strLe, strLeB, Bool.not_eq_true']
    cases h : listLtB b.data a.data
    · exact Or.inl rfl
    · cases h2 : listLtB a.data b.data
      · exact Or.inr rfl
      · exact (listLtB_asymm h2 h).elim⟩

instance : IsTrans String strLe :=
  ⟨fun a b c hab hbc => by
    simp only [strLe, strLeB, Bool.not_eq_true'] at *
    cases hca : listLtB c.data a.data
    · rfl
    · exfalso
      cases hbc' : listLtB b.data c.data
      · rw [← listLtB_connex hbc' hbc] at hca
        rw [hca] at hab
        exact Bool.true_eq_false.mp hab
      · have := listLtB_trans hbc' hca
        rw [this] at hab
        exact Bool.true_eq_false.mp hab⟩

instance : IsAntisymm String strLe :=
  ⟨fun a b hab hba => by
    simp only [strLe, strLeB, Bool.not_eq_true'] at hab hba
    have h : a.data = b.data := listLtB_connex hba hab
    cases a; cases b
    exact congrArg String.mk h⟩

/-! ## Helper lemmas: substring tests, joins and sorting -/

theorem listInfixB_infix_iff {n h : List Char} : listInfixB n h = true ↔ n <:+: h := by
  induction h with
  | nil =>
    simp [listInfixB, List.isEmpty_iff, List.infix_nil]
  | cons c rest ih =>
    simp [listInfixB, ih, List.infix_cons_iff, List.isPrefixOf_iff_prefix, or_comm]

theorem listInfixB_singleton {c : Char} {l : List Char} :
    listInfixB [c] l = true ↔ c ∈ l := by
  induction l with
  | nil => simp [listInfixB]
  | cons d rest ih =>
    simp only [listInfixB, List.isPrefixOf, Bool.or_eq_true, Bool.and_eq_true, ih,
      List.isPrefixOf_nil_left, and_true, List.mem_cons, beq_iff_eq]

theorem pyJoin_ne_empty {l : List String} {x : String} (hx : x ∈ l) (hne : x ≠ "") :
    pyJoin ", " l ≠ "" := by
  match l, hx with
  | [y], hx =>
    rw [List.mem_singleton] at hx
    subst hx
    simpa [pyJoin] using hne
  | y :: z :: rest, _ =>
    intro hEq
    have hl := congrArg String.length hEq
    rw [pyJoin] at hl
    simp only [String.length_append] at hl
    have h2 : String.length ", " = 2 := rfl
    have h0 : String.length "" = 0 := rfl
    omega

theorem mem_sortStr {x : String} {l : List String} : x ∈ sortStr l ↔ x ∈ l :=
  (List.perm_insertionSort strLe l).mem_iff

theorem sorted_sortStr (l : List String) : List.Sorted strLe (sortStr l) :=
  List.sorted_insertionSort strLe l

theorem nodup_sortStr {l : List String} (h : l.Nodup) : (sortStr l).Nodup :=
  (List.perm_insertionSort strLe l).symm.nodup h

theorem sortStr_congr_perm {l₁ l₂ : List String} (h : l₁.Perm l₂) :
    sortStr l₁ = sortStr l₂ :=
  List.eq_of_perm_of_sorted
    (((List.perm_insertionSort strLe l₁).trans h).trans
      (List.perm_insertionSort strLe l₂).symm)
    (sorted_sortStr l₁) (sorted_sortStr l₂)

/-! ## Claim C5: the resume validator -/

/-- C5: the resume validator accepts a text exactly when its length is at
least 200 characters and its lowercasing contains at least one keyword of
the fixed list `RESUME_KEYWORDS`; the 150-character text `eduText150`
containing "education" is rejected by the length gate despite the keyword
match. -/
theorem validator_iff_length_and_keyword :
    (∀ s : String, looks_like_resume s = true ↔
      200 ≤ pyLen s ∧ ∃ k ∈ RESUME_KEYWORDS, k.data <:+: (pyLower s).data)
    ∧ pyLen eduText150 = 150
    ∧ "education".data <:+: (pyLower eduText150).data
    ∧ looks_like_resume eduText150 = false := by
  refine ⟨fun s => ?_, by decide, listInfixB_infix_iff.mp (by decide), by decide⟩
  simp [looks_like_resume, pyIn, List.any_eq_true, listInfixB_infix_iff, Nat.not_lt]

/-! ## Claim C6: missing-skill recommendation is a sorted set difference -/

/-- C6: the missing-skill list is sorted and duplicate-free and holds
exactly the job skill tokens (comma-split, stripped, lowercased,
non-empty) that are not candidate skill tokens; on job skills
"python, django, sql" against candidate skills "python, sql" the joined
recommendation is "django". -/
theorem missing_skills_set_difference :
    (∀ candidate job : String,
      List.Sorted strLe (missing_skills_list candidate job)
      ∧ (missing_skills_list candidate job).Nodup
      ∧ (∀ x, x ∈ missing_skills_list candidate job ↔
          x ∈ skillTokens job ∧ x ∉ skillTokens candidate))
    ∧ recommendedSkills "python, sql" "python, django, sql" = "django" := by
  refine ⟨fun c j => ⟨sorted_sortStr _, ?_, fun x => ?_⟩, by decide⟩
  · exact nodup_sortStr ((List.nodup_dedup _).filter _)
  · rw [missing_skills_list, mem_sortStr, List.mem_filter]
    simp [List.contains]

/-! ## Claim C7: skill extraction is sorted, deduplicated, deterministic -/

/-- C7: the extracted skill list is always sorted and duplicate-free; the
output string depends only on which vocabulary keywords occur in the
lowercased input, so it is invariant under case changes of the input and
under permutations of the vocabulary list. -/
theorem extract_skills_sorted_dedup_deterministic :
    (∀ t : String,
      List.Sorted strLe (extract_skills_list t) ∧ (extract_skills_list t).Nodup)
    ∧ (∀ t₁ t₂ : String,
        (∀ k ∈ SKILL_KEYWORDS, pyIn k (pyLower t₁) = pyIn k (pyLower t₂)) →
        extract_skills_from_text t₁ = extract_skills_from_text t₂)
    ∧ (∀ t₁ t₂ : String, pyLower t₁ = pyLower t₂ →
        extract_skills_from_text t₁ = extract_skills_from_text t₂)
    ∧ (∀ (vocab : List String) (t : String), vocab.Perm SKILL_KEYWORDS →
        extract_skills_list_with vocab t = extract_skills_list t) := by
  have hlist : ∀ t₁ t₂ : String,
      (∀ k ∈ SKILL_KEYWORDS, pyIn k (pyLower t₁) = pyIn k (pyLower t₂)) →
      extract_skills_list t₁ = extract_skills_list t₂ := by
    intro t₁ t₂ h
    rw [extract_skills_list, extract_skills_list, extract_skills_list_with,
      extract_skills_list_with, List.filter_congr h]
  refine ⟨fun t => ⟨sorted_sortStr _, nodup_sortStr (List.nodup_dedup _)⟩,
    fun t₁ t₂ h => ?_, fun t₁ t₂ h => ?_, fun vocab t h => ?_⟩
  · rw [extract_skills_from_text, extract_skills_from_text, hlist t₁ t₂ h]
  · rw [extract_skills_from_text, extract_skills_from_text,
      hlist t₁ t₂ (fun k _ => by rw [h])]
  · exact sortStr_congr_perm ((h.filter _).dedup)

/-- C7 witness: two inputs with different casing and keyword order match
the same keyword set and produce the identical output string. -/
theorem extract_skills_deterministic_witness :
    (∀ k ∈ SKILL_KEYWORDS,
      pyIn k (pyLower "Python and django") = pyIn k (pyLower "DJANGO then python"))
    ∧ extract_skills_from_text "Python and django"
      = extract_skills_from_text "DJANGO then python" :=
  ⟨by decide,
    extract_skills_sorted_dedup_deterministic.2.1 _ _ (by decide)⟩

/-! ## Claim C10: the toggle establishes status from the flag -/

/-- C10: after any call of `toggle_shortlist`, whatever the prior status
(including DRAFT), the status is SHORTLISTED exactly when the new
`is_shortlisted` flag is true and REJECTED exactly when it is false; the
result is never any earlier status. -/
theorem toggle_establishes_flag_status :
    ∀ s : Score,
      ((toggle_shortlist s).status = .SHORTLISTED
        ↔ (toggle_shortlist s).is_shortlisted = true)
      ∧ ((toggle_shortlist s).status = .REJECTED
        ↔ (toggle_shortlist s).is_shortlisted = false)
      ∧ ((toggle_shortlist s).status = .SHORTLISTED
        ∨ (toggle_shortlist s).status = .REJECTED) := by
  intro s
  cases h : s.is_shortlisted <;> simp [toggle_shortlist, h]

/-! ## Claim C2: the status lifecycle -/

/-- C2 counterexample: applying the reviewer toggle to a freshly created
DRAFT row moves it straight to SHORTLISTED; the trace of statuses is
`[DRAFT, SHORTLISTED]` and never contains SUBMITTED, so a row can reach
SHORTLISTED without ever having been SUBMITTED. -/
theorem toggle_reaches_shortlisted_without_submission :
    (statesOf [Op.toggle] draftScore).map Score.status
      = [Status.DRAFT, Status.SHORTLISTED]
    ∧ Status.SUBMITTED ∉ (statesOf [Op.toggle] draftScore).map Score.status := by
  constructor
  · rfl
  · intro h
    rw [show (statesOf [Op.toggle] draftScore).map Score.status
      = [Status.DRAFT, Status.SHORTLISTED] from rfl] at h
    simp at h

/-- C2 amended: the status rank (DRAFT 0, SUBMITTED 1,
SHORTLISTED/REJECTED 2) never decreases under any operation, and along
any trace ranks are monotone, so there is no backward transition other
than the SHORTLISTED/REJECTED toggle at rank 2; but the toggle always
lands on SHORTLISTED or REJECTED, so a DRAFT row can skip SUBMITTED. -/
theorem status_rank_monotone :
    (∀ (op : Op) (s : Score), rank s.status ≤ rank ((applyOp op s).status))
    ∧ (∀ (ops : List Op) (s : Score),
        List.Chain' (fun a b => rank a.status ≤ rank b.status) (statesOf ops s))
    ∧ (∀ s : Score, (applyOp Op.toggle s).status = .SHORTLISTED
        ∨ (applyOp Op.toggle s).status = .REJECTED) := by
  have hstep : ∀ (op : Op) (s : Score), rank s.status ≤ rank ((applyOp op s).status) := by
    intro op s
    cases op with
    | submit =>
      by_cases h : s.status = .DRAFT
      · simp [applyOp, submit_application, h, rank]
      · simp [applyOp, submit_application, h]
    | toggle =>
      cases hb : s.is_shortlisted <;>
        cases s.status <;> simp [applyOp, toggle_shortlist, hb, rank]
  have hhead : ∀ (ops : List Op) (s : Score), (statesOf ops s).head? = some s := by
    intro ops s
    cases ops <;> simp [statesOf, List.scanl]
  refine ⟨hstep, fun ops => ?_, fun s => ?_⟩
  · induction ops with
    | nil => intro s; simp [statesOf, List.scanl]
    | cons op ops ih =>
      intro s
      have hexp : statesOf (op :: ops) s = s :: statesOf ops (applyOp op s) := by
        simp [statesOf, List.scanl]
      rw [hexp, List.chain'_cons']
      refine ⟨fun y hy => ?_, ih (applyOp op s)⟩
      rw [hhead ops (applyOp op s)] at hy
      rw [Option.mem_some_iff] at hy
      subst hy
      exact hstep op s
  · cases hb : s.is_shortlisted <;> simp [applyOp, toggle_shortlist, hb]

/-! ## Claim C9: the single-letter keyword "c" -/

theorem mem_pyLower_c {t : String} (h : 'c' ∈ t.data ∨ 'C' ∈ t.data) :
    'c' ∈ (pyLower t).data := by
  rcases h with h | h
  · exact List.mem_map.mpr ⟨'c', h, by decide⟩
  · exact List.mem_map.mpr ⟨'C', h, by decide⟩

theorem mem_dropWhile_of_neg {p : Char → Bool} {c : Char} :
    ∀ {l : List Char}, c ∈ l → p c = false → c ∈ l.dropWhile p := by
  intro l
  induction l with
  | nil => intro h _; exact absurd h (List.not_mem_nil c)
  | cons a t ih =>
    intro h hp
    rw [List.dropWhile_cons]
    by_cases ha : p a = true
    · rw [if_pos ha]
      rcases List.mem_cons.mp h with rfl | ht
      · rw [hp] at ha; exact absurd ha Bool.false_ne_true
      · exact ih ht hp
    · rw [Bool.not_eq_true] at ha
      simp only [ha, Bool.false_eq_true, if_false]
      exact h

theorem mem_stripChars {c : Char} {l : List Char} (hc : c ∈ l)
    (hw : c.isWhitespace = false) : c ∈ stripChars l := by
  rw [stripChars, List.mem_reverse]
  exact mem_dropWhile_of_neg (List.mem_reverse.mpr (mem_dropWhile_of_neg hc hw)) hw

/-- C9: matching is plain substring containment, so every text containing
the letter 'c' (either case) matches the single-letter keyword "c",
making the extractor output non-empty; every text containing
"javascript" also reports "java"; consequently the no-skills outcome of
the upload pipeline is unreachable for any uploaded text containing the
letter 'c'. -/
theorem letter_c_always_matches :
    (∀ t : String, 'c' ∈ t.data ∨ 'C' ∈ t.data →
      "c" ∈ extract_skills_list t ∧ extract_skills_from_text t ≠ "")
    ∧ (∀ t : String, pyIn "javascript" (pyLower t) = true →
        "java" ∈ extract_skills_list t)
    ∧ (∀ (owner rid : Nat) (rt es : String) (jobs : List Job) (db : DB),
        'c' ∈ rt.data ∨ 'C' ∈ rt.data →
        (upload_resume owner rid rt es jobs db).1 ≠ .error msgNoSkills) := by
  have hc : ∀ t : String, 'c' ∈ t.data ∨ 'C' ∈ t.data →
      "c" ∈ extract_skills_list t ∧ extract_skills_from_text t ≠ "" := by
    intro t h
    have hmem : "c" ∈ extract_skills_list t := by
      rw [extract_skills_list, extract_skills_list_with, mem_sortStr, List.mem_dedup,
        List.mem_filter]
      refine ⟨by decide, ?_⟩
      show listInfixB "c".data (pyLower t).data = true
      exact listInfixB_singleton.mpr (mem_pyLower_c h)
    exact ⟨hmem, pyJoin_ne_empty hmem (by decide)⟩
  refine ⟨hc, fun t h => ?_, fun owner rid rt es jobs db hraw => ?_⟩
  · rw [extract_skills_list, extract_skills_list_with, mem_sortStr, List.mem_dedup,
      List.mem_filter]
    refine ⟨by decide, ?_⟩
    show listInfixB "java".data (pyLower t).data = true
    rw [listInfixB_infix_iff]
    exact List.IsInfix.trans (listInfixB_infix_iff.mp (by decide))
      (listInfixB_infix_iff.mp h)
  · have h : 'c' ∈ (pyStrip rt).data ∨ 'C' ∈ (pyStrip rt).data :=
      hraw.imp (fun h1 => mem_stripChars h1 (by decide))
        (fun h2 => mem_stripChars h2 (by decide))
    by_cases hv : looks_like_resume (pyStrip rt) = true
    · have hne : (extract_skills_from_text (pyStrip rt) == "") = false :=
        beq_eq_false_iff_ne.mpr (hc (pyStrip rt) h).2
      rw [upload_resume]
      simp only [hv, if_true, hne, Bool.false_eq_true, if_false]
      split
      · simp
      · split <;> split <;> simp
    · rw [upload_resume]
      simp only [Bool.not_eq_true] at hv
      simp only [hv, Bool.false_eq_true, if_false, ne_eq]
      intro hEq
      rw [UploadOutcome.error.injEq] at hEq
      exact absurd hEq (by decide)

/-- C9 witness: "curriculum vitae" contains the letter 'c', so the keyword
"c" is matched and the extractor output is non-empty. -/
theorem letter_c_always_matches_witness :
    ('c' ∈ "curriculum vitae".data ∨ 'C' ∈ "curriculum vitae".data)
    ∧ "c" ∈ extract_skills_list "curriculum vitae"
    ∧ extract_skills_from_text "curriculum vitae" ≠ "" :=
  ⟨Or.inl (by decide),
    (letter_c_always_matches.1 "curriculum vitae" (Or.inl (by decide))).1,
    (letter_c_always_matches.1 "curriculum vitae" (Or.inl (by decide))).2⟩

/-! ## Claim C1: the similarity scorer on degenerate inputs -/

theorem dotR_self_zero {u : List ℝ} (h : ∀ x ∈ u, x = 0) : dotR u u = 0 := by
  induction u with
  | nil => simp [dotR]
  | cons a u ih =>
    rw [dotR, List.zipWith_cons_cons, List.sum_cons]
    rw [h a (List.mem_cons_self a u)]
    have : dotR u u = 0 := ih (fun x hx => h x (List.mem_cons_of_mem a hx))
    rw [dotR] at this
    rw [this]
    ring

theorem tfidfVec_all_zero (da db vocab : List String) :
    ∀ x ∈ tfidfVec [] da db vocab, x = 0 := by
  intro x hx
  rw [tfidfVec] at hx
  obtain ⟨t, _, rfl⟩ := List.mem_map.mp hx
  simp

theorem cosineSim_zero_left {u v : List ℝ} (h : ∀ x ∈ u, x = 0) :
    cosineSim u v = 0 := by
  rw [cosineSim, if_pos (Or.inl (dotR_self_zero h))]

theorem cosineSim_zero_right {u v : List ℝ} (h : ∀ x ∈ v, x = 0) :
    cosineSim u v = 0 := by
  rw [cosineSim, if_pos (Or.inr (dotR_self_zero h))]

theorem pyRound2_zero : pyRound2 0 = 0 := by
  rw [pyRound2, zero_mul, roundHalfToEven, if_neg, round_zero, Int.cast_zero, zero_div]
  rw [Int.fract_zero]
  norm_num

theorem scoreValue_zero_left {a b : String} (ha : sklearnTokens a = []) :
    scoreValue a b = 0 := by
  rw [scoreValue, ha, cosineSim_zero_left (tfidfVec_all_zero _ _ _), zero_mul,
    pyRound2_zero]

theorem scoreValue_zero_right {a b : String} (hb : sklearnTokens b = []) :
    scoreValue a b = 0 := by
  rw [scoreValue, hb, cosineSim_zero_right (tfidfVec_all_zero _ _ _), zero_mul,
    pyRound2_zero]

theorem tfVocab_ne_nil_left {a b : String} (ha : sklearnTokens a ≠ []) :
    tfVocab a b ≠ [] := by
  intro hEq
  rw [tfVocab, sortStr] at hEq
  have hperm := List.perm_insertionSort strLe ((sklearnTokens a ++ sklearnTokens b).dedup)
  rw [hEq] at hperm
  have hnil := hperm.symm.eq_nil
  rw [List.dedup_eq_nil, List.append_eq_nil] at hnil
  exact ha hnil.1

theorem tfVocab_ne_nil_right {a b : String} (hb : sklearnTokens b ≠ []) :
    tfVocab a b ≠ [] := by
  intro hEq
  rw [tfVocab, sortStr] at hEq
  have hperm := List.perm_insertionSort strLe ((sklearnTokens a ++ sklearnTokens b).dedup)
  rw [hEq] at hperm
  have hnil := hperm.symm.eq_nil
  rw [List.dedup_eq_nil, List.append_eq_nil] at hnil
  exact hb hnil.2

/-- C1 counterexample: on two inputs that both yield an empty vocabulary
(two empty strings) the scorer does not return 0.0 — the vectorizer
raises its empty-vocabulary error, so the claim's "either text" guarantee
fails when both texts are degenerate. -/
theorem score_both_empty_raises :
    sklearnTokens "" = [] ∧ (score "" "").isOk = false := by
  constructor
  · rfl
  · rfl

/-- C1 amended: when exactly one of the two texts yields an empty token
set (the other yielding at least one term), the scorer returns 0.0 in
either argument order and does not raise; when both texts yield an empty
token set, the vectorizer raises instead of returning 0.0. -/
theorem score_empty_side_zero (a b : String) :
    (sklearnTokens a = [] → sklearnTokens b ≠ [] →
      score a b = .ok 0 ∧ score b a = .ok 0)
    ∧ (sklearnTokens a = [] → sklearnTokens b = [] → (score a b).isOk = false) := by
  constructor
  · intro ha hb
    constructor
    · rw [score, if_neg (tfVocab_ne_nil_right hb), scoreValue_zero_left ha]
    · rw [score, if_neg (tfVocab_ne_nil_left hb), scoreValue_zero_right ha]
  · intro ha hb
    have hvocab : tfVocab a b = [] := by
      rw [tfVocab, ha, hb]
      rfl
    rw [score, if_pos hvocab]
    rfl

/-- C1 witness: `score("", "python")` hits the one-sided degenerate case
and yields exactly 0.0 without an error. -/
theorem score_empty_side_zero_witness :
    sklearnTokens "" = [] ∧ sklearnTokens "python" ≠ [] ∧ score "" "python" = .ok 0 :=
  ⟨by decide, by decide,
    ((score_empty_side_zero "" "python").1 (by decide) (by decide)).1⟩

/-! ## Claim C8: failures abort before persistence -/

/-- C8: when the validator rejects the stripped text, or when the
validator accepts it but skill extraction is empty, `upload_resume`
returns a distinct error outcome for each case and leaves the database
untouched — no Resume row and no Score row is created. -/
theorem failures_abort_before_persistence :
    (∀ (owner rid : Nat) (rt es : String) (jobs : List Job) (db : DB),
      (looks_like_resume (pyStrip rt) = false →
        upload_resume owner rid rt es jobs db = (.error msgInvalidResume, db))
      ∧ (looks_like_resume (pyStrip rt) = true →
          extract_skills_from_text (pyStrip rt) = "" →
          upload_resume owner rid rt es jobs db = (.error msgNoSkills, db)))
    ∧ msgInvalidResume ≠ msgNoSkills := by
  refine ⟨fun owner rid rt es jobs db => ⟨fun hv => ?_, fun hv hne => ?_⟩, by decide⟩
  · simp [upload_resume, hv]
  · simp [upload_resume, hv, hne]

/-- C8 witness: an empty upload fails validation with the
invalid-resume message, and a long text containing "skills" but no
skill keyword fails with the no-skills message; neither touches the
database. -/
theorem failures_abort_before_persistence_witness :
    upload_resume 0 1 "" "" [] ⟨[], []⟩ = (.error msgInvalidResume, ⟨[], []⟩)
    ∧ upload_resume 0 1 noSkillText "" [] ⟨[], []⟩ = (.error msgNoSkills, ⟨[], []⟩) :=
  ⟨(failures_abort_before_persistence.1 0 1 "" "" [] ⟨[], []⟩).1 (by decide),
    (failures_abort_before_persistence.1 0 1 noSkillText "" [] ⟨[], []⟩).2
      (by decide) (by decide)⟩

/-! ## Helper lemmas: the matching loop -/

theorem userOf_append {res more : List Resume} {rid u : Nat}
    (h : userOf res rid = some u) : userOf (res ++ more) rid = some u := by
  rw [userOf] at h ⊢
  rw [List.find?_append]
  obtain ⟨r, hr, hu⟩ := Option.map_eq_some'.mp h
  rw [hr]
  simpa using hu

theorem scoreExists_iff {res : List Resume} {sc : List Score} {o i : Nat} :
    scoreExists res sc o i = true
      ↔ ∃ s ∈ sc, s.job = i ∧ userOf res s.resume = some o := by
  rw [scoreExists, List.any_eq_true]
  simp only [Bool.and_eq_true, beq_iff_eq]

theorem scoreExists_false_iff {res : List Resume} {sc : List Score} {o i : Nat} :
    scoreExists res sc o i = false
      ↔ ∀ s ∈ sc, ¬(s.job = i ∧ userOf res s.resume = some o) := by
  constructor
  · intro h s hs hP
    have ht : scoreExists res sc o i = true := scoreExists_iff.mpr ⟨s, hs, hP⟩
    rw [h] at ht
    exact Bool.false_ne_true ht
  · intro h
    cases hb : scoreExists res sc o i
    · rfl
    · obtain ⟨s, hs, hj, hu⟩ := scoreExists_iff.mp hb
      exact absurd ⟨hj, hu⟩ (h s hs)

theorem scoreExists_append_right {res : List Resume} {sc more : List Score}
    {o i : Nat} (h : scoreExists res sc o i = true) :
    scoreExists res (sc ++ more) o i = true := by
  rw [scoreExists, List.any_append]
  rw [scoreExists] at h
  rw [h]
  rfl

theorem scoreExists_res_mono {res₁ res₂ : List Resume} {sc : List Score} {o i : Nat}
    (hmono : ∀ x u, userOf res₁ x = some u → userOf res₂ x = some u)
    (h : scoreExists res₁ sc o i = true) : scoreExists res₂ sc o i = true := by
  obtain ⟨s, hs, hj, hu⟩ := scoreExists_iff.mp h
  exact scoreExists_iff.mpr ⟨s, hs, hj, hmono _ _ hu⟩

theorem scoreExists_res_mono_false {res₁ res₂ : List Resume} {sc : List Score}
    {o i : Nat}
    (hmono : ∀ x u, userOf res₁ x = some u → userOf res₂ x = some u)
    (hfk : ∀ s ∈ sc, (userOf res₁ s.resume).isSome = true)
    (h : scoreExists res₁ sc o i = false) : scoreExists res₂ sc o i = false := by
  rw [scoreExists_false_iff] at h ⊢
  intro s hs hP
  obtain ⟨u, hu₁⟩ := Option.isSome_iff_exists.mp (hfk s hs)
  have hu₂ := hmono _ _ hu₁
  rw [hu₂] at hP
  have : u = o := Option.some_inj.mp hP.2
  subst this
  exact h s hs ⟨hP.1, hu₁⟩

theorem run_matching_final (o : Nat) (st : String) (rid : Nat) (res : List Resume) :
    ∀ (jobs : List Job) (sc : List Score),
      (run_matching o st rid res jobs sc).2.1
        = sc ++ (run_matching o st rid res jobs sc).1 := by
  intro jobs
  induction jobs with
  | nil => intro sc; simp [run_matching]
  | cons j rest ih =>
    intro sc
    by_cases hex : scoreExists res sc o j.id = true
    · simp only [run_matching, hex, if_true]
      exact ih sc
    · rw [Bool.not_eq_true] at hex
      cases hs : score st j.required_skills with
      | error e => simp [run_matching, hex, hs]
      | ok v =>
        simp only [run_matching, hex, Bool.false_eq_true, if_false, hs]
        simp only [ih]
        simp

theorem run_matching_all_matched (o : Nat) (st : String) (rid : Nat)
    (res : List Resume) :
    ∀ (jobs : List Job) (sc : List Score),
      (∀ j ∈ jobs, scoreExists res sc o j.id = true) →
      run_matching o st rid res jobs sc = ([], sc, none) := by
  intro jobs
  induction jobs with
  | nil => intro sc _; rfl
  | cons j rest ih =>
    intro sc h
    have hex : scoreExists res sc o j.id = true := h j (List.mem_cons_self j rest)
    simp only [run_matching, hex, if_true]
    exact ih sc (fun j' hj' => h j' (List.mem_cons_of_mem j hj'))

/-! ## Claim C3: the zero-new-records outcome -/

/-- C3 counterexample: a valid upload against an empty job table and a
valid upload against a job table in which every job is already matched
produce the identical warning outcome — the "no jobs exist" case is not
signalled distinctly from the "all jobs already matched" case. -/
theorem no_jobs_and_all_matched_same_message :
    (upload_resume 0 9 validText "" [] ⟨[], []⟩).1 = .warning msgAllMatched
    ∧ (upload_resume 0 9 validText "" [⟨7, "python"⟩] dbOneMatch).1
      = .warning msgAllMatched := by
  constructor
  · rfl
  · rfl

/-- C3 amended: whenever a valid upload creates zero new records —
whether because every job is already matched for this user or because no
jobs exist at all — the caller receives the same warning message
`msgAllMatched`, which is its own message distinct from the success and
error messages, but does not distinguish the two zero-creation causes. -/
theorem zero_created_warning_message :
    (∀ (owner rid : Nat) (rt es : String) (jobs : List Job) (db : DB),
      looks_like_resume (pyStrip rt) = true →
      extract_skills_from_text (pyStrip rt) ≠ "" →
      (∀ j ∈ jobs, scoreExists db.resumes db.scores owner j.id = true) →
      (upload_resume owner rid rt es jobs db).1 = .warning msgAllMatched)
    ∧ msgAllMatched ≠ msgSuccess
    ∧ msgAllMatched ≠ msgInvalidResume
    ∧ msgAllMatched ≠ msgNoSkills := by
  refine ⟨fun owner rid rt es jobs db hv hne hAll => ?_, by decide, by decide, by decide⟩
  have hne' : (extract_skills_from_text (pyStrip rt) == "") = false :=
    beq_eq_false_iff_ne.mpr hne
  rw [upload_resume]
  simp only [hv, if_true, hne', Bool.false_eq_true, if_false]
  rw [run_matching_all_matched]
  · rfl
  · intro j hj
    exact scoreExists_res_mono (fun x u h => userOf_append h) (hAll j hj)

/-- C3 witness: a valid upload with an empty job table takes the
zero-created path and yields the warning message. -/
theorem zero_created_warning_message_witness :
    (upload_resume 4 11 validText "" [] ⟨[], []⟩).1 = .warning msgAllMatched :=
  zero_created_warning_message.1 4 11 validText "" [] ⟨[], []⟩
    (by decide) (by decide) (by simp)

/-! ## Claim C4: orchestrator dedup invariant and idempotence -/

theorem run_matching_created_fresh (o : Nat) (st : String) (rid : Nat)
    (res : List Resume) :
    ∀ (jobs : List Job) (sc : List Score),
      ∀ r ∈ (run_matching o st rid res jobs sc).1,
        scoreExists res sc o r.job = false := by
  intro jobs
  induction jobs with
  | nil => intro sc r hr; simp [run_matching] at hr
  | cons j rest ih =>
    intro sc r hr
    by_cases hex : scoreExists res sc o j.id = true
    · simp only [run_matching, hex, if_true] at hr
      exact ih sc r hr
    · rw [Bool.not_eq_true] at hex
      cases hs : score st j.required_skills with
      | error e => simp [run_matching, hex, hs] at hr
      | ok v =>
        simp only [run_matching, hex, Bool.false_eq_true, if_false, hs] at hr
        rcases List.mem_cons.mp hr with rfl | hr'
        · exact hex
        · have hlater := ih
            (sc ++ [⟨rid, j.id, v, recommendedSkills st j.required_skills, .DRAFT, false⟩])
            r hr'
          rw [scoreExists_false_iff] at hlater ⊢
          intro s hsmem hP
          exact hlater s (List.mem_append_left _ hsmem) hP

theorem run_matching_nodup (o : Nat) (st : String) (rid : Nat) (res : List Resume)
    (hrid : userOf res rid = some o) :
    ∀ (jobs : List Job) (sc : List Score), NoDupPairs res sc →
      NoDupPairs res (run_matching o st rid res jobs sc).2.1 := by
  intro jobs
  induction jobs with
  | nil => intro sc h; simpa [run_matching] using h
  | cons j rest ih =>
    intro sc h
    by_cases hex : scoreExists res sc o j.id = true
    · simp only [run_matching, hex, if_true]
      exact ih sc h
    · rw [Bool.not_eq_true] at hex
      cases hs : score st j.required_skills with
      | error e => simpa [run_matching, hex, hs] using h
      | ok v =>
        simp only [run_matching, hex, Bool.false_eq_true, if_false, hs]
        apply ih
        rw [NoDupPairs, List.pairwise_append]
        refine ⟨h, List.pairwise_singleton _ _, fun s hsmem r' hr' => ?_⟩
        rw [List.mem_singleton] at hr'
        subst hr'
        intro hsame
        obtain ⟨hjob, u, hu₁, hu₂⟩ := hsame
        have hu₂' : userOf res rid = some u := hu₂
        rw [hrid] at hu₂'
        have : o = u := Option.some_inj.mp hu₂'
        subst this
        exact scoreExists_false_iff.mp hex s hsmem ⟨hjob, hu₁⟩

theorem run_matching_twice_nil (o : Nat) (st : String) (rid₁ rid₂ : Nat)
    (res₁ res₂ : List Resume)
    (hrid : userOf res₁ rid₁ = some o)
    (hmono : ∀ x u, userOf res₁ x = some u → userOf res₂ x = some u) :
    ∀ (jobs : List Job) (sc : List Score),
      (∀ s ∈ sc, (userOf res₁ s.resume).isSome = true) →
      (run_matching o st rid₂ res₂ jobs
        (run_matching o st rid₁ res₁ jobs sc).2.1).1 = [] := by
  intro jobs
  induction jobs with
  | nil => intro sc _; simp [run_matching]
  | cons j rest ih =>
    intro sc hfk
    by_cases hex : scoreExists res₁ sc o j.id = true
    · have hex₂ : scoreExists res₂ (run_matching o st rid₁ res₁ rest sc).2.1 o j.id
          = true := by
        rw [run_matching_final]
        exact scoreExists_append_right (scoreExists_res_mono hmono hex)
      simp only [run_matching, hex, if_true, hex₂]
      exact ih sc hfk
    · rw [Bool.not_eq_true] at hex
      cases hs : score st j.required_skills with
      | error e =>
        have hex₂ : scoreExists res₂ sc o j.id = false :=
          scoreExists_res_mono_false hmono hfk hex
        simp [run_matching, hex, hs, hex₂]
      | ok v =>
        have hex₂ : scoreExists res₂ (run_matching o st rid₁ res₁ rest
            (sc ++ [⟨rid₁, j.id, v, recommendedSkills st j.required_skills,
              .DRAFT, false⟩])).2.1 o j.id = true := by
          rw [run_matching_final]
          apply scoreExists_append_right
          apply scoreExists_iff.mpr
          refine ⟨⟨rid₁, j.id, v, recommendedSkills st j.required_skills,
            .DRAFT, false⟩, List.mem_append_right _ (List.mem_singleton.mpr rfl),
            rfl, hmono _ _ hrid⟩
        simp only [run_matching, hex, Bool.false_eq_true, if_false, hs, hex₂, if_true]
        apply ih
        intro s hsmem
        rcases List.mem_append.mp hsmem with hl | hr
        · exact hfk s hl
        · rw [List.mem_singleton] at hr
          subst hr
          rw [show (⟨rid₁, j.id, v, recommendedSkills st j.required_skills,
            .DRAFT, false⟩ : Score).resume = rid₁ from rfl, hrid]
          rfl

/-- C4: the matching loop creates a record for a job only when no record
for the (resume-owner, job) pair exists, so the at-most-one-record-per-
pair invariant is preserved, and running the loop a second time with the
same owner, skill text and job collection (against the table the first
run left, with the resume table possibly grown) creates zero new
records. -/
theorem orchestrator_dedup_and_idempotent :
    ∀ (o : Nat) (st : String) (rid₁ rid₂ : Nat) (res₁ res₂ : List Resume)
      (jobs : List Job) (sc : List Score),
      userOf res₁ rid₁ = some o →
      (∀ x u, userOf res₁ x = some u → userOf res₂ x = some u) →
      (∀ s ∈ sc, (userOf res₁ s.resume).isSome = true) →
      NoDupPairs res₁ sc →
      (∀ r ∈ (run_matching o st rid₁ res₁ jobs sc).1,
        scoreExists res₁ sc o r.job = false)
      ∧ NoDupPairs res₁ (run_matching o st rid₁ res₁ jobs sc).2.1
      ∧ (run_matching o st rid₂ res₂ jobs
          (run_matching o st rid₁ res₁ jobs sc).2.1).1 = [] :=
  fun o st rid₁ rid₂ res₁ res₂ jobs sc h₁ h₂ h₃ h₄ =>
    ⟨run_matching_created_fresh o st rid₁ res₁ jobs sc,
     run_matching_nodup o st rid₁ res₁ h₁ jobs sc h₄,
     run_matching_twice_nil o st rid₁ rid₂ res₁ res₂ h₁ h₂ jobs sc h₃⟩

/-- C4 witness: one owner, one job, an empty score table: the first run's
created records are fresh, the invariant is preserved, and a second run
over the first run's table creates nothing. -/
theorem orchestrator_dedup_and_idempotent_witness :
    (∀ r ∈ (run_matching 0 "python" 1 [⟨1, 0, "python"⟩] [⟨7, "python"⟩] []).1,
      scoreExists [⟨1, 0, "python"⟩] [] 0 r.job = false)
    ∧ NoDupPairs [⟨1, 0, "python"⟩]
        (run_matching 0 "python" 1 [⟨1, 0, "python"⟩] [⟨7, "python"⟩] []).2.1
    ∧ (run_matching 0 "python" 2 [⟨1, 0, "python"⟩] [⟨7, "python"⟩]
        (run_matching 0 "python" 1 [⟨1, 0, "python"⟩] [⟨7, "python"⟩] []).2.1).1 = [] :=
  orchestrator_dedup_and_idempotent 0 "python" 1 2 [⟨1, 0, "python"⟩]
    [⟨1, 0, "python"⟩] [⟨7, "python"⟩] [] (by decide) (fun x u h => h)
    (by simp) List.Pairwise.nil
